import Mathlib

set_option maxRecDepth 4096

/-!
# Verification of the CodeChecker ingestion-and-identity engine and collaborators

This development embeds, in Lean 4, the parts of the CodeChecker repository
needed to settle the specification claims:

* the diagnostic-bundle ingestion pipeline (bundle reader, schema normalizer,
  hash engine, report assembler) — the implementation of this core is not in
  the sampled sources (only its unit tests are), so its definitions are
  modelled from the specification document, as marked on each definition;
* the database housekeeping routines of
  `web/server/codechecker_server/database/db_cleanup.py`;
* the host capability probe `check_clang` of
  `analyzer/codechecker_analyzer/host_check.py`.
-/

/-! ## Digest model

Modelled from the spec: §4.3 step 2 says the canonical string is digested
with "a fixed cryptographic or non-cryptographic digest" represented "as a
fixed-length lowercase hex string", and §9 (Digest choice) says "any
implementation may substitute an equivalent fixed-output, stable,
non-versioned digest as long as the canonicalization string construction
(§4.3) is reproduced exactly — the digest algorithm itself is an
implementation detail, not a contract".  Following that licence the model
digest maps every character of the canonical string to a fixed-width (eight
hex digits) lowercase hexadecimal block; it is deterministic, stable, made
of lowercase hex digits, and injective, so the identity properties asserted
by the spec (determinism and sensitivity to the canonical string) hold
exactly. -/

/-- Lowercase hexadecimal digit for a value below sixteen. -/
def hexDigitChar (n : Nat) : Char :=
  if n < 10 then Char.ofNat (48 + n) else Char.ofNat (87 + n)

/-- Fixed-width big-endian lowercase hexadecimal rendering of a natural. -/
def hexNatAux : Nat → Nat → List Char
  | 0, _ => []
  | w + 1, n => hexNatAux w (n / 16) ++ [hexDigitChar (n % 16)]

/-- Eight-hex-digit block for one character (code points are below 16^8). -/
def hexBlock (c : Char) : List Char :=
  hexNatAux 8 c.toNat

/-- Modelled from the spec: the fixed digest of §4.3 step 2 / §9 producing a
lowercase hex string; see the section comment above for the modelling
licence. -/
def digest (s : String) : String :=
  ⟨(s.data.map hexBlock).flatten⟩

/-! ## Data model of the ingestion pipeline

Modelled from the spec: §3 (Data model) and §6 (External interfaces). The
implementation of the bundle reader / schema normalizer / hash engine /
report assembler is absent from the sampled sources (only
`tests/unit/test_plist_parser.py` exercises it), so these definitions
follow the specification document, with field names taken from the unit
tests' fixtures where they show them. -/

/-- A defect's primary point: `{file_index, line, column}` (spec §3),
matching the `location` mappings (`file`, `line`, `col`) of the test
fixtures.  Lines are 1-based as in the fixtures. -/
structure Location where
  file : Nat
  line : Nat
  col : Nat
deriving DecidableEq, Repr

/-- Modelled from the spec: one raw defect finding of a bundle (spec §3,
"Diagnostic (raw)"); `check_name` and `embedded_hash` are optional because
older schema generations omit them. -/
structure RawDiagnostic where
  category : String
  type : String
  description : String
  check_name : Option String
  issue_context : String
  issue_context_kind : String
  location : Location
  function_offset : Nat
  embedded_hash : Option String
deriving DecidableEq, Repr

/-- How the checker name of a normalized diagnostic was obtained
(spec §3, "NormalizedDiagnostic"; §4.2). -/
inductive Provenance where
  | declared
  | inferred
  | unresolved
deriving DecidableEq, Repr

/-- Modelled from the spec: raw diagnostic plus resolved checker name
(never absent) and resolution provenance (spec §3). -/
structure NormalizedDiagnostic where
  category : String
  type : String
  description : String
  check_name : String
  issue_context : String
  issue_context_kind : String
  location : Location
  function_offset : Nat
  provenance : Provenance
deriving DecidableEq, Repr

/-- Modelled from the spec: the canonical emitted record of one defect
(spec §3, "Report"), with the degraded-hash flag of §4.3 / §7. -/
structure Report where
  check_name : String
  category : String
  type : String
  description : String
  issue_context : String
  issue_context_kind : String
  location : Location
  content_hash : String
  context_hash : String
  hash_degraded : Bool
deriving DecidableEq, Repr

/-- Modelled from the spec: the parsed bundle (spec §3,
"DiagnosticBundle"; §6 allows the `diagnostics` key to be missing, which is
represented as `none`). -/
structure RawBundle where
  files : List String
  diagnostics : Option (List RawDiagnostic)
deriving DecidableEq, Repr

/-- The collaborator-provided `read_source_line(file_path, line_number) ->
text | not_found` function of spec §6. -/
def SourceReader : Type := String → Nat → Option String

/-- Lookup in the static description→checker-name table (spec §4.2). -/
def lookupName : List (String × String) → String → Option String
  | [], _ => none
  | (d, n) :: t, descr => if d = descr then some n else lookupName t descr

/-- Modelled from the spec: the Schema Normalizer of §4.2.  A declared name
is used verbatim; otherwise the description is looked up in the table; on
no match the sentinel "NOT FOUND" is used.  It is a total function: it
never fails. -/
def normalizeDiagnostic (table : List (String × String)) (d : RawDiagnostic) :
    NormalizedDiagnostic :=
  let resolved : String × Provenance :=
    match d.check_name with
    | some n => (n, Provenance.declared)
    | none =>
      match lookupName table d.description with
      | some n => (n, Provenance.inferred)
      | none => ("NOT FOUND", Provenance.unresolved)
  { category := d.category
    type := d.type
    description := d.description
    check_name := resolved.1
    issue_context := d.issue_context
    issue_context_kind := d.issue_context_kind
    location := d.location
    function_offset := d.function_offset
    provenance := resolved.2 }

/-- Whitespace test used by line trimming. -/
def isWS (c : Char) : Bool :=
  c = ' ' || c = '\t' || c = '\n' || c = '\r'

/-- Modelled from the spec: the whitespace normalization of §4.3 step 1
("the normalized whitespace-trimmed text of the source line"): leading and
trailing whitespace is removed. -/
def trimLine (s : String) : String :=
  ⟨((s.data.dropWhile isWS).reverse.dropWhile isWS).reverse⟩

/-- Modelled from the spec: the canonical string of §4.3 step 1, built from
the resolved checker name, the enclosing context name (§3 invariant) and
the whitespace-trimmed text of the source line at the defect's line. -/
def canonicalContent (checker ctx lineText : String) : String :=
  checker ++ "|" ++ ctx ++ "|" ++ lineText

/-- Modelled from the spec: the primary identity hash of §4.3 as a function
of the (checker_name, context_name, trimmed source-line text) triple of the
§3 invariant. -/
def contentHash (checker ctx lineText : String) : String :=
  digest (canonicalContent checker ctx lineText)

/-- Modelled from the spec: the legacy context hash of §4.3, from the
checker name, the context name and the defect's offset relative to the
enclosing function. -/
def contextHash (checker ctx : String) (offsetInCtx : Nat) : String :=
  digest (checker ++ "|" ++ ctx ++ "|" ++ toString offsetInCtx)

/-- Modelled from the spec: the location-only fallback canonicalization of
§4.3's failure mode, used when the source file cannot be read. -/
def degradedHash (checker : String) (loc : Location) : String :=
  digest ("location-only|" ++ checker ++ "|" ++ toString loc.file ++ ":" ++
    toString loc.line ++ ":" ++ toString loc.col)

/-- Modelled from the spec: the Hash Engine of §4.3 applied to one
normalized diagnostic.  When the source line is readable the content hash
is computed from the trimmed line text; otherwise the engine falls back to
location-only canonicalization and flags the report `hash_degraded`
(§4.3 failure modes, §7 `SourceUnavailable`). -/
def hashDiagnostic (reader : SourceReader) (files : List String)
    (nd : NormalizedDiagnostic) : Report :=
  let path := files.getD nd.location.file ""
  let base : Report :=
    { check_name := nd.check_name
      category := nd.category
      type := nd.type
      description := nd.description
      issue_context := nd.issue_context
      issue_context_kind := nd.issue_context_kind
      location := nd.location
      content_hash := ""
      context_hash := contextHash nd.check_name nd.issue_context nd.function_offset
      hash_degraded := false }
  match reader path nd.location.line with
  | some text =>
    { base with
        content_hash := contentHash nd.check_name nd.issue_context (trimLine text) }
  | none =>
    { base with
        content_hash := degradedHash nd.check_name nd.location
        hash_degraded := true }

/-- Modelled from the spec: the per-bundle pipeline (§2 data flow): each
diagnostic is normalized then hashed, reports keep the bundle's original
order (§4.4), and a bundle with zero diagnostics (empty or missing
`diagnostics` key, §6) yields no files and no reports (§8, round trip on
empty input). -/
def ingest (table : List (String × String)) (reader : SourceReader)
    (b : RawBundle) : List String × List Report :=
  let diags := b.diagnostics.getD []
  match diags with
  | [] => ([], [])
  | _ => (b.files, diags.map (fun d => hashDiagnostic reader b.files (normalizeDiagnostic table d)))

/-- Modelled from the spec: the outermost parse entry point
(`parse_plist` in the unit tests).  An empty input file is modelled as
`none` and is treated as a bundle with zero diagnostics (§4.1
`EmptyBundle` is "not an error, returned as an empty result"). -/
def parse_plist (table : List (String × String)) (reader : SourceReader)
    (input : Option RawBundle) : List String × List Report :=
  match input with
  | none => ([], [])
  | some b => ingest table reader b

/-! ## Source-file line edits

A source file is modelled as its list of lines; line numbers are 1-based
as in the bundle fixtures.  `insertLineAt f p s` makes `s` the new line
`p`; `removeLineAt f p` deletes line `p`.  The shift functions give the
new line number of a line that was at `L` before the edit. -/

/-- Text of 1-based line `n` of a file; missing lines read as empty. -/
def lineAt (f : List String) (n : Nat) : String :=
  f.getD (n - 1) ""

/-- Insert `s` as the new 1-based line `p` (appending when `p` is past the
end). -/
def insertLineAt : List String → Nat → String → List String
  | f, 0, s => s :: f
  | f, 1, s => s :: f
  | [], _ + 2, s => [s]
  | h :: t, p + 2, s => h :: insertLineAt t (p + 1) s

/-- Remove the 1-based line `p` (no change when `p` is past the end). -/
def removeLineAt : List String → Nat → List String
  | [], _ => []
  | _ :: t, 0 => t
  | _ :: t, 1 => t
  | h :: t, p + 2 => h :: removeLineAt t (p + 1)

/-- New 1-based number of the line that was at `L`, after a line was
inserted at `p`. -/
def shiftAfterInsert (p L : Nat) : Nat :=
  if p ≤ L then L + 1 else L

/-- New 1-based number of the line that was at `L` (with `L ≠ p`), after
line `p` was removed. -/
def shiftAfterRemove (p L : Nat) : Nat :=
  if p < L then L - 1 else L

/-! ## Database housekeeping model

Embedding of `web/server/codechecker_server/database/db_cleanup.py`.  Rows
carry exactly the columns the routines touch; the database is a record of
one list per table, and each routine is the state transition its
(successful) transaction commits. -/

/-- A `RunLock` row; `locked_at` is a timestamp in seconds. -/
structure RunLock where
  name : String
  locked_at : Int
deriving DecidableEq, Repr

/-- A `File` row. -/
structure DBFile where
  id : Nat
  filepath : String
  content_hash : String
deriving DecidableEq, Repr

/-- A `FileContent` row, keyed by `content_hash`. -/
structure FileContent where
  content_hash : String
  content : String
deriving DecidableEq, Repr

/-- A `BugPathEvent` row (only its `file_id` column is used here). -/
structure BugPathEvent where
  file_id : Nat
deriving DecidableEq, Repr

/-- A `BugReportPoint` row (only its `file_id` column is used here). -/
structure BugReportPoint where
  file_id : Nat
deriving DecidableEq, Repr

/-- A `Report` row as `upgrade_severity_levels` sees it. -/
structure DBReport where
  checker_id : String
  severity : Nat
deriving DecidableEq, Repr

/-- The tables of the run database touched by `db_cleanup.py`. -/
structure DBState where
  runLocks : List RunLock
  files : List DBFile
  fileContents : List FileContent
  bugPathEvents : List BugPathEvent
  bugReportPoints : List BugReportPoint
  reports : List DBReport
deriving DecidableEq, Repr

/-- `RUN_LOCK_TIMEOUT_IN_DATABASE = 30 * 60  # 30 minutes.` -/
def RUN_LOCK_TIMEOUT_IN_DATABASE : Int := 30 * 60

/-- `remove_expired_run_locks`: deletes the `RunLock` rows with
`locked_at < datetime.now() - timedelta(seconds=RUN_LOCK_TIMEOUT_IN_DATABASE)`;
`now` is the current time in seconds. -/
def remove_expired_run_locks (now : Int) (s : DBState) : DBState :=
  let locks_expired_at := now - RUN_LOCK_TIMEOUT_IN_DATABASE
  { s with
      runLocks := s.runLocks.filter (fun l => ¬ (l.locked_at < locks_expired_at)) }

/-- `remove_unused_files`: first deletes the `File` rows whose `id` is in
neither the `BugPathEvent.file_id` nor the `BugReportPoint.file_id`
grouped subqueries, then deletes the `FileContent` rows whose
`content_hash` no longer appears among the (remaining) `File` rows. -/
def remove_unused_files (s : DBState) : DBState :=
  let bpe_files := s.bugPathEvents.map (fun e => e.file_id)
  let brp_files := s.bugReportPoints.map (fun e => e.file_id)
  let files2 := s.files.filter
    (fun f => ¬ (f.id ∉ bpe_files ∧ f.id ∉ brp_files))
  let remaining_hashes := files2.map (fun f => f.content_hash)
  let fileContents2 := s.fileContents.filter
    (fun fc => ¬ (fc.content_hash ∉ remaining_hashes))
  { s with files := files2, fileContents := fileContents2 }

/-! ## Host capability probe

Embedding of `check_clang` from
`analyzer/codechecker_analyzer/host_check.py`.  The outcome of
`subprocess.call` is either a return code or a raised `OSError` with an
`errno`; the Python function returns `True`, `False`, or falls off the end
(returning `None`), modelled as `Option Bool`. -/

/-- Outcome of `subprocess.call([compiler_bin, '--version'], ...)`. -/
inductive SubprocessOutcome where
  | exited (code : Int)
  | oserror (errnoVal : Nat)
deriving DecidableEq, Repr

/-- `errno.ENOENT`. -/
def ENOENT : Nat := 2

/-- `check_clang`: `if not res: return True`; else `return False`; on
`OSError` with `errno == errno.ENOENT` return `False`; any other `OSError`
falls off the end of the handler, returning `None`. -/
def check_clang : SubprocessOutcome → Option Bool
  | SubprocessOutcome.exited res => if res = 0 then some true else some false
  | SubprocessOutcome.oserror e => if e = ENOENT then some false else none

/-! ## Fixtures -/

/-- The div-zero fixture of the unit tests, normalized with a declared
checker name. -/
def ndFixture : NormalizedDiagnostic :=
  { category := "Logic error"
    type := "Division by zero"
    description := "Division by zero"
    check_name := "core.DivideZero"
    issue_context := "generate_id"
    issue_context_kind := "function"
    location := { file := 1, line := 7, col := 14 }
    function_offset := 1
    provenance := Provenance.declared }

/-- The div-zero fixture with a declared checker name. -/
def rawFixtureDeclared : RawDiagnostic :=
  { category := "Logic error"
    type := "Division by zero"
    description := "Division by zero"
    check_name := some "core.DivideZero"
    issue_context := "generate_id"
    issue_context_kind := "function"
    location := { file := 1, line := 7, col := 14 }
    function_offset := 1
    embedded_hash := none }

/-- The div-zero fixture without a declared checker name (older schema). -/
def rawFixtureUndeclared : RawDiagnostic :=
  { rawFixtureDeclared with check_name := none }

/-- One-entry description→checker-name table resolving the fixture. -/
def tableFixture : List (String × String) :=
  [("Division by zero", "core.DivideZero")]

/-- A reader that always finds the fixture's defect line. -/
def readerFixture : SourceReader := fun _ _ => some "  x/y  "

/-- A reader for which no source file is readable. -/
def readerUnavailable : SourceReader := fun _ _ => none

/-- A small database state: file 1 is referenced by a bug path event,
file 2 by nothing. -/
def dbFixture : DBState :=
  { runLocks := [{ name := "run1", locked_at := 0 }, { name := "run2", locked_at := 9000 }]
    files := [{ id := 1, filepath := "a.cpp", content_hash := "h1" },
              { id := 2, filepath := "b.cpp", content_hash := "h2" }]
    fileContents := [{ content_hash := "h1", content := "int x;" },
                     { content_hash := "h2", content := "int y;" }]
    bugPathEvents := [{ file_id := 1 }]
    bugReportPoints := []
    reports := [] }

/-! ## Helper lemmas -/

theorem hexDigitChar_injOn {a b : Nat} (ha : a < 16) (hb : b < 16)
    (h : hexDigitChar a = hexDigitChar b) : a = b := by
  interval_cases a <;> interval_cases b <;> simp_all [hexDigitChar]

theorem hexNatAux_length (w n : Nat) : (hexNatAux w n).length = w := by
  induction w generalizing n with
  | zero => rfl
  | succ w ih => simp [hexNatAux, ih]

theorem hexNatAux_injOn (w : Nat) :
    ∀ {m n : Nat}, m < 16 ^ w → n < 16 ^ w →
      hexNatAux w m = hexNatAux w n → m = n := by
  induction w with
  | zero =>
    intro m n hm hn _
    simp [pow_zero] at hm hn
    omega
  | succ w ih =>
    intro m n hm hn h
    simp only [hexNatAux] at h
    obtain ⟨h1, h2⟩ := List.append_inj h (by simp [hexNatAux_length])
    rw [pow_succ] at hm hn
    have hdiv : m / 16 = n / 16 :=
      ih ((Nat.div_lt_iff_lt_mul (by norm_num)).mpr hm)
        ((Nat.div_lt_iff_lt_mul (by norm_num)).mpr hn) h1
    have hmod : m % 16 = n % 16 :=
      hexDigitChar_injOn (Nat.mod_lt _ (by omega)) (Nat.mod_lt _ (by omega))
        (by simpa using h2)
    omega

theorem char_toNat_lt (c : Char) : c.toNat < 16 ^ 8 := by
  have h := UInt32.toNat_lt_size c.val
  simp only [UInt32.size] at h
  have : c.toNat = c.val.toNat := rfl
  omega

theorem hexBlock_inj {c d : Char} (h : hexBlock c = hexBlock d) : c = d := by
  have hnat : c.toNat = d.toNat :=
    hexNatAux_injOn 8 (char_toNat_lt c) (char_toNat_lt d) h
  calc c = Char.ofNat c.toNat := (Char.ofNat_toNat c).symm
    _ = Char.ofNat d.toNat := by rw [hnat]
    _ = d := Char.ofNat_toNat d

theorem hexBlocks_flatten_inj :
    ∀ l1 l2 : List Char, (l1.map hexBlock).flatten = (l2.map hexBlock).flatten →
      l1 = l2 := by
  intro l1
  induction l1 with
  | nil =>
    intro l2 h
    cases l2 with
    | nil => rfl
    | cons c t =>
      exfalso
      have hlen := congrArg List.length h
      simp [hexBlock, hexNatAux_length] at hlen
      omega
  | cons c t ih =>
    intro l2 h
    cases l2 with
    | nil =>
      exfalso
      have hlen := congrArg List.length h
      simp [hexBlock, hexNatAux_length] at hlen
    | cons d t2 =>
      simp only [List.map_cons, List.flatten_cons] at h
      obtain ⟨h1, h2⟩ := List.append_inj h (by simp [hexBlock, hexNatAux_length])
      have hc : c = d := hexBlock_inj h1
      have ht : t = t2 := ih t2 h2
      rw [hc, ht]

theorem digest_inj {s1 s2 : String} (h : digest s1 = digest s2) : s1 = s2 := by
  have hdata : (s1.data.map hexBlock).flatten = (s2.data.map hexBlock).flatten := by
    have := congrArg String.data h
    simpa [digest] using this
  have hd := hexBlocks_flatten_inj s1.data s2.data hdata
  cases s1; cases s2
  exact congrArg String.mk hd

theorem digest_ne_empty {s : String} (h : s ≠ "") : digest s ≠ "" := by
  intro hcontr
  exact h (digest_inj (by simpa [digest] using hcontr))

theorem lineAt_insertLineAt (f : List String) (p L : Nat) (s : String)
    (hp : 1 ≤ p) (hL : 1 ≤ L) (hLf : L ≤ f.length) :
    lineAt (insertLineAt f p s) (shiftAfterInsert p L) = lineAt f L := by
  induction f generalizing p L with
  | nil =>
    exfalso
    simp at hLf
    omega
  | cons h t ih =>
    match p, hp with
    | 1, _ =>
      show lineAt (s :: h :: t) (shiftAfterInsert 1 L) = lineAt (h :: t) L
      unfold shiftAfterInsert
      rw [if_pos hL]
      show (s :: h :: t).getD (L + 1 - 1) "" = (h :: t).getD (L - 1) ""
      match L, hL with
      | L + 1, _ => simp
    | p + 2, _ =>
      match L, hL with
      | 1, _ =>
        show lineAt (h :: insertLineAt t (p + 1) s) (shiftAfterInsert (p + 2) 1)
          = lineAt (h :: t) 1
        unfold shiftAfterInsert
        rw [if_neg (by omega)]
        rfl
      | L + 2, _ =>
        have hLt : L + 1 ≤ t.length := by simpa using hLf
        have hih := ih (p + 1) (L + 1) (by omega) (by omega) hLt
        show lineAt (h :: insertLineAt t (p + 1) s) (shiftAfterInsert (p + 2) (L + 2))
          = lineAt (h :: t) (L + 2)
        unfold shiftAfterInsert at hih ⊢
        by_cases hc : p + 2 ≤ L + 2
        · rw [if_pos hc]
          rw [if_pos (by omega : p + 1 ≤ L + 1)] at hih
          show (h :: insertLineAt t (p + 1) s).getD (L + 3 - 1) ""
            = (h :: t).getD (L + 2 - 1) ""
          simpa [lineAt] using hih
        · rw [if_neg hc]
          rw [if_neg (by omega : ¬ (p + 1 ≤ L + 1))] at hih
          show (h :: insertLineAt t (p + 1) s).getD (L + 2 - 1) ""
            = (h :: t).getD (L + 2 - 1) ""
          simpa [lineAt] using hih

theorem lineAt_removeLineAt (f : List String) (p L : Nat)
    (hp : 1 ≤ p) (hL : 1 ≤ L) (hLf : L ≤ f.length) (hne : p ≠ L) :
    lineAt (removeLineAt f p) (shiftAfterRemove p L) = lineAt f L := by
  induction f generalizing p L with
  | nil =>
    exfalso
    simp at hLf
    omega
  | cons h t ih =>
    match p, hp with
    | 1, _ =>
      match L, hL with
      | 1, _ => omega
      | L + 2, _ =>
        show lineAt t (shiftAfterRemove 1 (L + 2)) = lineAt (h :: t) (L + 2)
        unfold shiftAfterRemove
        rw [if_pos (by omega)]
        show t.getD (L + 2 - 1 - 1) "" = (h :: t).getD (L + 2 - 1) ""
        simp
    | p + 2, _ =>
      match L, hL with
      | 1, _ =>
        show lineAt (h :: removeLineAt t (p + 1)) (shiftAfterRemove (p + 2) 1)
          = lineAt (h :: t) 1
        unfold shiftAfterRemove
        rw [if_neg (by omega)]
        rfl
      | L + 2, _ =>
        have hLt : L + 1 ≤ t.length := by simpa using hLf
        have hih := ih (p + 1) (L + 1) (by omega) (by omega) hLt (by omega)
        show lineAt (h :: removeLineAt t (p + 1)) (shiftAfterRemove (p + 2) (L + 2))
          = lineAt (h :: t) (L + 2)
        unfold shiftAfterRemove at hih ⊢
        by_cases hc : p + 2 < L + 2
        · rw [if_pos hc]
          rw [if_pos (by omega : p + 1 < L + 1)] at hih
          have hL1 : 1 ≤ L := by omega
          show (h :: removeLineAt t (p + 1)).getD (L + 2 - 1 - 1) ""
            = (h :: t).getD (L + 2 - 1) ""
          have he1 : L + 2 - 1 - 1 = (L - 1) + 1 := by omega
          rw [he1]
          simp only [lineAt] at hih
          simpa using hih
        · rw [if_neg hc]
          rw [if_neg (by omega : ¬ (p + 1 < L + 1))] at hih
          show (h :: removeLineAt t (p + 1)).getD (L + 2 - 1) ""
            = (h :: t).getD (L + 2 - 1) ""
          simpa [lineAt] using hih

theorem hashDiagnostic_content_congr (reader : SourceReader)
    (files : List String) (n1 n2 : NormalizedDiagnostic)
    (hname : n1.check_name = n2.check_name)
    (hctx : n1.issue_context = n2.issue_context)
    (hloc : n1.location = n2.location) :
    (hashDiagnostic reader files n1).content_hash
      = (hashDiagnostic reader files n2).content_hash := by
  obtain ⟨c1, t1, de1, cn1, ic1, ik1, l1, fo1, p1⟩ := n1
  obtain ⟨c2, t2, de2, cn2, ic2, ik2, l2, fo2, p2⟩ := n2
  simp only at hname hctx hloc
  subst hname
  subst hctx
  subst hloc
  rcases hr : reader (files[l1.file]?.getD "") l1.line with _ | text <;>
    simp [hashDiagnostic, List.getD, hr]

/-! ## Claim theorems -/

/-- Claim C10: `check_clang` returns `True` exactly when the `--version`
invocation exits with status 0; it returns `False` on a nonzero exit or on
an `OSError` with `errno == ENOENT`; on an `OSError` with any other errno
it returns `None`. -/
theorem check_clang_result_characterization :
    (∀ o : SubprocessOutcome,
      check_clang o = some true ↔ o = SubprocessOutcome.exited 0) ∧
    (∀ c : Int, c ≠ 0 → check_clang (SubprocessOutcome.exited c) = some false) ∧
    check_clang (SubprocessOutcome.oserror ENOENT) = some false ∧
    (∀ e : Nat, e ≠ ENOENT → check_clang (SubprocessOutcome.oserror e) = none) := by
  refine ⟨?_, ?_, ?_, ?_⟩
  · intro o
    cases o with
    | exited c =>
      by_cases hc : c = 0 <;> simp [check_clang, hc]
    | oserror e =>
      by_cases he : e = ENOENT <;> simp [check_clang, he]
  · intro c hc
    simp [check_clang, hc]
  · simp [check_clang]
  · intro e he
    simp [check_clang, he]

/-- Claim C10 witness: a nonzero exit status yields `False`. -/
theorem check_clang_result_characterization_witness :
    check_clang (SubprocessOutcome.exited 1) = some false :=
  check_clang_result_characterization.2.1 1 (by decide)

/-- Claim C9: `remove_expired_run_locks` deletes exactly the `RunLock`
rows whose `locked_at` is strictly earlier than the current time minus 30
minutes (1800 seconds); younger locks and all rows of every other table
are unchanged. -/
theorem remove_expired_run_locks_exact :
    ∀ (now : Int) (s : DBState),
      (remove_expired_run_locks now s).runLocks
        = s.runLocks.filter (fun l => now - 1800 ≤ l.locked_at) ∧
      (∀ l ∈ s.runLocks, l.locked_at < now - 1800 →
        l ∉ (remove_expired_run_locks now s).runLocks) ∧
      (∀ l ∈ s.runLocks, now - 1800 ≤ l.locked_at →
        l ∈ (remove_expired_run_locks now s).runLocks) ∧
      (remove_expired_run_locks now s).files = s.files ∧
      (remove_expired_run_locks now s).fileContents = s.fileContents ∧
      (remove_expired_run_locks now s).bugPathEvents = s.bugPathEvents ∧
      (remove_expired_run_locks now s).bugReportPoints = s.bugReportPoints ∧
      (remove_expired_run_locks now s).reports = s.reports := by
  intro now s
  have hfilter : (remove_expired_run_locks now s).runLocks
      = s.runLocks.filter (fun l => now - 1800 ≤ l.locked_at) := by
    unfold remove_expired_run_locks RUN_LOCK_TIMEOUT_IN_DATABASE
    norm_num
  refine ⟨hfilter, ?_, ?_, rfl, rfl, rfl, rfl, rfl⟩
  · intro l hl hexp hmem
    rw [hfilter] at hmem
    have := List.of_mem_filter hmem
    simp at this
    omega
  · intro l hl hyoung
    rw [hfilter]
    exact List.mem_filter.mpr ⟨hl, by simpa using hyoung⟩

/-- Claim C9 witness: at time 10000 the lock taken at time 0 is deleted
and the lock taken at time 9000 survives. -/
theorem remove_expired_run_locks_exact_witness :
    ({ name := "run1", locked_at := 0 } : RunLock)
        ∉ (remove_expired_run_locks 10000 dbFixture).runLocks ∧
    ({ name := "run2", locked_at := 9000 } : RunLock)
        ∈ (remove_expired_run_locks 10000 dbFixture).runLocks :=
  ⟨(remove_expired_run_locks_exact 10000 dbFixture).2.1
      { name := "run1", locked_at := 0 } (by simp [dbFixture]) (by decide),
   (remove_expired_run_locks_exact 10000 dbFixture).2.2.1
      { name := "run2", locked_at := 9000 } (by simp [dbFixture]) (by decide)⟩

/-- Claim C8: after `remove_unused_files`, every remaining `File` row is
referenced by some `BugPathEvent` or `BugReportPoint` row, every remaining
`FileContent` row's `content_hash` is held by some remaining `File` row,
and no `File` row referenced by a bug path event or report point is
deleted. -/
theorem remove_unused_files_invariant :
    ∀ s : DBState,
      (∀ f ∈ (remove_unused_files s).files,
        (∃ e ∈ s.bugPathEvents, e.file_id = f.id) ∨
        (∃ e ∈ s.bugReportPoints, e.file_id = f.id)) ∧
      (∀ fc ∈ (remove_unused_files s).fileContents,
        ∃ f ∈ (remove_unused_files s).files, f.content_hash = fc.content_hash) ∧
      (∀ f ∈ s.files,
        ((∃ e ∈ s.bugPathEvents, e.file_id = f.id) ∨
         (∃ e ∈ s.bugReportPoints, e.file_id = f.id)) →
        f ∈ (remove_unused_files s).files) := by
  intro s
  refine ⟨?_, ?_, ?_⟩
  · intro f hf
    unfold remove_unused_files at hf
    simp only [List.mem_filter] at hf
    have hcond := hf.2
    simp [List.mem_map] at hcond
    rcases hcond with ⟨e, he, heq⟩ | ⟨e, he, heq⟩
    · exact Or.inl ⟨e, he, heq⟩
    · exact Or.inr ⟨e, he, heq⟩
  · intro fc hfc
    unfold remove_unused_files at hfc
    simp only [List.mem_filter] at hfc
    have hcond := hfc.2
    simp [List.mem_map] at hcond
    rcases hcond with ⟨f, hfmem, hfcond, hfh⟩
    refine ⟨f, ?_, hfh⟩
    unfold remove_unused_files
    simp only [List.mem_filter]
    refine ⟨hfmem, ?_⟩
    simp [List.mem_map]
    exact hfcond
  · intro f hf href
    unfold remove_unused_files
    simp only [List.mem_filter]
    refine ⟨hf, ?_⟩
    simp [List.mem_map]
    rcases href with ⟨e, he, heq⟩ | ⟨e, he, heq⟩
    · exact Or.inl ⟨e, he, heq⟩
    · exact Or.inr ⟨e, he, heq⟩

/-- Claim C8 witness: in the fixture state, file 1 (referenced by a bug
path event) survives the cleanup. -/
theorem remove_unused_files_invariant_witness :
    ({ id := 1, filepath := "a.cpp", content_hash := "h1" } : DBFile)
      ∈ (remove_unused_files dbFixture).files :=
  (remove_unused_files_invariant dbFixture).2.2
    { id := 1, filepath := "a.cpp", content_hash := "h1" }
    (by simp [dbFixture])
    (Or.inl ⟨{ file_id := 1 }, by simp [dbFixture], rfl⟩)

/-- Claim C4: normalization totally succeeds; when `checker_name` is
absent and the description matches no table entry, the result carries the
sentinel `"NOT FOUND"` (with provenance "unresolved"); being a total Lean
function, the normalizer never throws. -/
theorem normalizeDiagnostic_sentinel :
    ∀ (table : List (String × String)) (d : RawDiagnostic),
      d.check_name = none →
      lookupName table d.description = none →
      (normalizeDiagnostic table d).check_name = "NOT FOUND" ∧
      (normalizeDiagnostic table d).provenance = Provenance.unresolved := by
  intro table d hname hlookup
  simp [normalizeDiagnostic, hname, hlookup]

/-- Claim C4 witness: the undeclared fixture against the empty table
resolves to the sentinel. -/
theorem normalizeDiagnostic_sentinel_witness :
    (normalizeDiagnostic [] rawFixtureUndeclared).check_name = "NOT FOUND" ∧
    (normalizeDiagnostic [] rawFixtureUndeclared).provenance
      = Provenance.unresolved :=
  normalizeDiagnostic_sentinel [] rawFixtureUndeclared rfl rfl

/-- Claim C7: every well-formed bundle with zero diagnostics — an empty
input file, a missing `diagnostics` key, or an empty `diagnostics` list —
parses to the empty file list and the empty report list. -/
theorem parse_plist_empty :
    ∀ (table : List (String × String)) (reader : SourceReader)
      (input : Option RawBundle),
      (input = none ∨
        ∃ b, input = some b ∧
          (b.diagnostics = none ∨ b.diagnostics = some [])) →
      parse_plist table reader input = ([], []) := by
  intro table reader input h
  rcases h with h | ⟨b, hb, hd⟩
  · rw [h]
    rfl
  · rw [hb]
    rcases hd with hd | hd <;> simp [parse_plist, ingest, hd]

/-- Claim C7 witness: the three zero-diagnostic inputs all parse to
`([], [])`. -/
theorem parse_plist_empty_witness :
    parse_plist tableFixture readerFixture none = ([], []) ∧
    parse_plist tableFixture readerFixture
      (some { files := ["test.cpp"], diagnostics := none }) = ([], []) ∧
    parse_plist tableFixture readerFixture
      (some { files := [], diagnostics := some [] }) = ([], []) :=
  ⟨parse_plist_empty tableFixture readerFixture none (Or.inl rfl),
   parse_plist_empty tableFixture readerFixture _
     (Or.inr ⟨_, rfl, Or.inl rfl⟩),
   parse_plist_empty tableFixture readerFixture _
     (Or.inr ⟨_, rfl, Or.inr rfl⟩)⟩

/-- Claim C6: when the referenced source file cannot be read, the hash
engine still emits a Report: it is flagged `hash_degraded`, its fallback
hash (from location-only canonicalization) is non-empty, and the flag
makes it distinguishable from every fully computed Report. -/
theorem hashDiagnostic_degraded :
    ∀ (reader : SourceReader) (files : List String)
      (nd : NormalizedDiagnostic),
      reader (files.getD nd.location.file "") nd.location.line = none →
      (hashDiagnostic reader files nd).hash_degraded = true ∧
      (hashDiagnostic reader files nd).content_hash ≠ "" ∧
      ∀ r2 : Report, r2.hash_degraded = false →
        hashDiagnostic reader files nd ≠ r2 := by
  intro reader files nd hread
  have hd : hashDiagnostic reader files nd
      = { check_name := nd.check_name
          category := nd.category
          type := nd.type
          description := nd.description
          issue_context := nd.issue_context
          issue_context_kind := nd.issue_context_kind
          location := nd.location
          content_hash := degradedHash nd.check_name nd.location
          context_hash := contextHash nd.check_name nd.issue_context nd.function_offset
          hash_degraded := true } := by
    simp only [hashDiagnostic]
    rw [hread]
  refine ⟨by rw [hd], ?_, ?_⟩
  · rw [hd]
    apply digest_ne_empty
    intro hcontr
    have := congrArg String.length hcontr
    simp [String.length_append] at this
    exact absurd this.1.1.1.1.1.1.1 (by decide)
  · intro r2 hr2 hcontr
    have : (hashDiagnostic reader files nd).hash_degraded = false := by
      rw [hcontr, hr2]
    rw [hd] at this
    simp at this

/-- Claim C6 witness: with no readable source, the fixture's report is
degraded, has a non-empty hash, and differs from a fully computed report
of itself. -/
theorem hashDiagnostic_degraded_witness :
    (hashDiagnostic readerUnavailable [] ndFixture).hash_degraded = true ∧
    (hashDiagnostic readerUnavailable [] ndFixture).content_hash ≠ "" ∧
    hashDiagnostic readerUnavailable [] ndFixture
      ≠ hashDiagnostic readerFixture [] ndFixture :=
  have h := hashDiagnostic_degraded readerUnavailable [] ndFixture rfl
  ⟨h.1, h.2.1, h.2.2 (hashDiagnostic readerFixture [] ndFixture) rfl⟩

/-- Claim C3: a diagnostic whose checker name is declared in the bundle
and one whose identical description is inferred to the same name carry the
provenances "declared" and "inferred" respectively, yet — all other hash
inputs matching — their content hashes are equal: provenance never
influences the hash. -/
theorem provenance_not_in_content_hash :
    ∀ (table : List (String × String)) (reader : SourceReader)
      (files : List String) (d1 d2 : RawDiagnostic) (n : String),
      d1.check_name = some n →
      d2.check_name = none →
      lookupName table d2.description = some n →
      d1.issue_context = d2.issue_context →
      d1.location = d2.location →
      (normalizeDiagnostic table d1).provenance = Provenance.declared ∧
      (normalizeDiagnostic table d2).provenance = Provenance.inferred ∧
      (hashDiagnostic reader files (normalizeDiagnostic table d1)).content_hash
        = (hashDiagnostic reader files (normalizeDiagnostic table d2)).content_hash := by
  intro table reader files d1 d2 n h1 h2 hl hctx hloc
  refine ⟨by simp [normalizeDiagnostic, h1], by simp [normalizeDiagnostic, h2, hl], ?_⟩
  apply hashDiagnostic_content_congr
  · simp [normalizeDiagnostic, h1, h2, hl]
  · simp [normalizeDiagnostic, h1, h2, hl, hctx]
  · simp [normalizeDiagnostic, h1, h2, hl, hloc]

/-- Claim C3 witness: the declared and the undeclared div-zero fixtures
resolve to the same checker name and get the same content hash. -/
theorem provenance_not_in_content_hash_witness :
    (normalizeDiagnostic tableFixture rawFixtureDeclared).provenance
      = Provenance.declared ∧
    (normalizeDiagnostic tableFixture rawFixtureUndeclared).provenance
      = Provenance.inferred ∧
    (hashDiagnostic readerFixture ["test.cpp", "test.h"]
        (normalizeDiagnostic tableFixture rawFixtureDeclared)).content_hash
      = (hashDiagnostic readerFixture ["test.cpp", "test.h"]
          (normalizeDiagnostic tableFixture rawFixtureUndeclared)).content_hash :=
  provenance_not_in_content_hash tableFixture readerFixture
    ["test.cpp", "test.h"] rawFixtureDeclared rawFixtureUndeclared
    "core.DivideZero" rfl rfl (by decide) rfl rfl

/-- Claim C2: inserting a line anywhere, or removing a line other than the
defect's own line, leaves the defect line's text — and therefore its
content hash — unchanged, once the defect's line number is shifted to its
new position. -/
theorem content_hash_line_shift_invariant :
    (∀ (f : List String) (p L : Nat) (s c ctx : String),
      1 ≤ p → 1 ≤ L → L ≤ f.length →
      contentHash c ctx (trimLine (lineAt (insertLineAt f p s) (shiftAfterInsert p L)))
        = contentHash c ctx (trimLine (lineAt f L))) ∧
    (∀ (f : List String) (p L : Nat) (c ctx : String),
      1 ≤ p → 1 ≤ L → L ≤ f.length → p ≠ L →
      contentHash c ctx (trimLine (lineAt (removeLineAt f p) (shiftAfterRemove p L)))
        = contentHash c ctx (trimLine (lineAt f L))) := by
  constructor
  · intro f p L s c ctx hp hL hLf
    rw [lineAt_insertLineAt f p L s hp hL hLf]
  · intro f p L c ctx hp hL hLf hne
    rw [lineAt_removeLineAt f p L hp hL hLf hne]

/-- Claim C2 witness: inserting a blank line before, and removing an
unrelated line after, the defect line of a three-line file leaves the
content hash unchanged. -/
theorem content_hash_line_shift_invariant_witness :
    contentHash "core.DivideZero" "generate_id"
        (trimLine (lineAt
          (insertLineAt ["int generate_id()", "  return 1 / 0;", "// end"] 1 "")
          (shiftAfterInsert 1 2)))
      = contentHash "core.DivideZero" "generate_id"
          (trimLine (lineAt ["int generate_id()", "  return 1 / 0;", "// end"] 2)) ∧
    contentHash "core.DivideZero" "generate_id"
        (trimLine (lineAt
          (removeLineAt ["int generate_id()", "  return 1 / 0;", "// end"] 3)
          (shiftAfterRemove 3 2)))
      = contentHash "core.DivideZero" "generate_id"
          (trimLine (lineAt ["int generate_id()", "  return 1 / 0;", "// end"] 2)) :=
  ⟨content_hash_line_shift_invariant.1
      ["int generate_id()", "  return 1 / 0;", "// end"] 1 2 ""
      "core.DivideZero" "generate_id" (by decide) (by decide) (by decide),
   content_hash_line_shift_invariant.2
      ["int generate_id()", "  return 1 / 0;", "// end"] 3 2
      "core.DivideZero" "generate_id" (by decide) (by decide) (by decide) (by decide)⟩

/-- Claim C5: a change of the resolved checker name changes the content
hash (the canonical digest input changes and the model digest is
injective), while any defect whose resolved checker name, context name
and location are unchanged keeps an identical content hash. -/
theorem content_hash_checker_name_sensitivity :
    (∀ c1 c2 ctx lineText : String, c1 ≠ c2 →
      contentHash c1 ctx lineText ≠ contentHash c2 ctx lineText) ∧
    (∀ (reader : SourceReader) (files : List String)
       (n1 n2 : NormalizedDiagnostic),
      n1.check_name = n2.check_name →
      n1.issue_context = n2.issue_context →
      n1.location = n2.location →
      (hashDiagnostic reader files n1).content_hash
        = (hashDiagnostic reader files n2).content_hash) := by
  constructor
  · intro c1 c2 ctx l hne hcontr
    apply hne
    have hcanon : canonicalContent c1 ctx l = canonicalContent c2 ctx l :=
      digest_inj hcontr
    have hdata : c1.data ++ "|".data ++ ctx.data ++ "|".data ++ l.data
        = c2.data ++ "|".data ++ ctx.data ++ "|".data ++ l.data := by
      have := congrArg String.data hcanon
      simpa [canonicalContent, String.data_append] using this
    have h4 := List.append_cancel_right (List.append_cancel_right
      (List.append_cancel_right (List.append_cancel_right hdata)))
    cases c1
    cases c2
    exact congrArg String.mk h4
  · intro reader files n1 n2 hname hctx hloc
    exact hashDiagnostic_content_congr reader files n1 n2 hname hctx hloc

/-- Claim C5 witness: the fixture's hash under the sentinel name differs
from its hash under the declared name, while a defect with unchanged hash
inputs keeps its hash. -/
theorem content_hash_checker_name_sensitivity_witness :
    contentHash "core.DivideZero" "generate_id" "x/y"
      ≠ contentHash "NOT FOUND" "generate_id" "x/y" :=
  content_hash_checker_name_sensitivity.1 "core.DivideZero" "NOT FOUND"
    "generate_id" "x/y" (by decide)

/-- Claim C1: ingestion is deterministic — rerunning the pipeline on the
same bundle gives identical results; the content hash of a report depends
only on the (checker name, context name, trimmed defect-line text) triple;
and at a fixed input the hash matches a fixed golden lowercase-hex value
of the model digest. -/
theorem ingest_content_hash_deterministic :
    (∀ (table : List (String × String)) (reader : SourceReader) (b : RawBundle),
      ingest table reader b = ingest table reader b) ∧
    (∀ (reader1 reader2 : SourceReader) (files1 files2 : List String)
       (n1 n2 : NormalizedDiagnostic) (l1 l2 : String),
      reader1 (files1.getD n1.location.file "") n1.location.line = some l1 →
      reader2 (files2.getD n2.location.file "") n2.location.line = some l2 →
      n1.check_name = n2.check_name →
      n1.issue_context = n2.issue_context →
      trimLine l1 = trimLine l2 →
      (hashDiagnostic reader1 files1 n1).content_hash
        = (hashDiagnostic reader2 files2 n2).content_hash) ∧
    contentHash "core.DivideZero" "generate_id" "x/y"
      = "000000630000006f00000072000000650000002e0000004400000069000000760000006900000064000000650000005a00000065000000720000006f0000007c00000067000000650000006e00000065000000720000006100000074000000650000005f00000069000000640000007c000000780000002f00000079" := by
  refine ⟨fun _ _ _ => rfl, ?_, by decide⟩
  intro reader1 reader2 files1 files2 n1 n2 l1 l2 h1 h2 hname hctx htrim
  have e1 : (hashDiagnostic reader1 files1 n1).content_hash
      = contentHash n1.check_name n1.issue_context (trimLine l1) := by
    simp only [hashDiagnostic]
    rw [h1]
  have e2 : (hashDiagnostic reader2 files2 n2).content_hash
      = contentHash n2.check_name n2.issue_context (trimLine l2) := by
    simp only [hashDiagnostic]
    rw [h2]
  rw [e1, e2, hname, hctx, htrim]

/-- Claim C1 witness: two runs with readers serving the same defect line
(up to surrounding whitespace) produce the same content hash. -/
theorem ingest_content_hash_deterministic_witness :
    (hashDiagnostic readerFixture ["test.cpp", "test.h"] ndFixture).content_hash
      = (hashDiagnostic (fun _ _ => some "x/y") [] ndFixture).content_hash :=
  ingest_content_hash_deterministic.2.1 readerFixture (fun _ _ => some "x/y")
    ["test.cpp", "test.h"] [] ndFixture ndFixture "  x/y  " "x/y"
    rfl rfl rfl rfl (by decide)
